import Mathlib

/-!
Verification of the pi-rtk-surveyor hardware I/O core.

Shallow embedding of the three verified subsystems of the repository:

* the GPIO pin registry (`src/src/hardware/gpio_manager.py`),
* the button input state machine (`src/src/hardware/button_manager.py`),
* the LC29H GNSS sentence pipeline (`src/src/common/lc29h_controller.py`).

Python dictionaries keyed by pins / buttons are embedded as total functions
into `Option`; wall-clock values (`time.time()`) are rational parameters
threaded through each operation; calls into the `RPi.GPIO` hardware library
are modelled by a boolean configuration oracle.  All numeric fields that the
Python code stores as floats are embedded as exact rationals: every property
checked here is order/field-algebraic, not bit-level.
-/

namespace PiRTK

/-- Pointwise update of a dictionary embedded as a total function. -/
def setF {α β : Type} [DecidableEq α] (f : α → β) (a : α) (b : β) : α → β :=
  fun x => if x = a then b else f x

/-! ## GPIO pin registry (`gpio_manager.py`) -/

/-- GPIO pin modes (`PinMode` enum). -/
inductive PinMode where
  | INPUT | OUTPUT | SPI | I2C | UART
  deriving DecidableEq, Repr

/-- GPIO pull resistor settings (`PinPull` enum). -/
inductive PinPull where
  | NONE | UP | DOWN
  deriving DecidableEq, Repr

/-- The mutable state of a `GPIOManager` instance: the three tracking
dictionaries (`allocated_pins`, `pin_modes`, `pin_callbacks`) and the
`registered_components` set.  Callbacks are identified by an opaque
numeric id. -/
structure GpioState where
  allocated : Nat → Option String
  pinModes : Nat → Option PinMode
  pinCallbacks : Nat → Option Nat
  registered : String → Bool

/-- Fresh `GPIOManager.__init__` state: empty tables, no components. -/
def initGpio : GpioState :=
  { allocated := fun _ => none
  , pinModes := fun _ => none
  , pinCallbacks := fun _ => none
  , registered := fun _ => false }

/-- `GPIOManager.BUTTON_PINS`, in Python dict insertion order
(pin, description). -/
def BUTTON_PINS : List (Nat × String) :=
  [(21, "KEY1"), (20, "KEY2"), (16, "KEY3"),
   (6, "JOY_UP"), (19, "JOY_DOWN"), (5, "JOY_LEFT"),
   (26, "JOY_RIGHT"), (13, "JOY_PRESS")]

/-- `GPIOManager.OLED_PINS`, in Python dict insertion order. -/
def OLED_PINS : List (Nat × String) :=
  [(8, "OLED_CS"), (10, "OLED_MOSI"), (11, "OLED_SCLK"),
   (24, "OLED_DC"), (25, "OLED_RST")]

/-- `GPIOManager.register_component`. -/
def registerComponent (s : GpioState) (comp : String) : Bool × GpioState :=
  if s.registered comp then (false, s)
  else (true, { s with registered := fun c => if c = comp then true else s.registered c })

/-- `GPIOManager.request_pin`.  The success of the `GPIO.setup` hardware
call inside `_configure_pin` is modelled by the oracle `cfg`; the
reserved-pin check in the source only logs a warning and has no effect on
the result or the state, so it is not represented. -/
def requestPin (cfg : Nat → PinMode → PinPull → Bool) (s : GpioState)
    (pin : Nat) (comp : String) (mode : PinMode) (pull : PinPull) :
    Bool × GpioState :=
  if s.registered comp = false then (false, s)
  else
    match s.allocated pin with
    | some owner =>
        if owner ≠ comp then (false, s)
        else (true, s)
    | none =>
        if cfg pin mode pull then
          (true, { s with
                    allocated := setF s.allocated pin (some comp)
                  , pinModes := setF s.pinModes pin (some mode) })
        else (false, s)

/-- `GPIOManager.release_pin`. -/
def releasePin (s : GpioState) (pin : Nat) (comp : String) : Bool × GpioState :=
  match s.allocated pin with
  | none => (false, s)
  | some owner =>
      if owner ≠ comp then (false, s)
      else
        (true, { s with
                  allocated := setF s.allocated pin none
                , pinModes := setF s.pinModes pin none
                , pinCallbacks := setF s.pinCallbacks pin none })

/-- The for-loop shared by `request_button_pins` and `request_oled_pins`:
walk the pin list, allocating each pin; on the first failure release every
pin allocated earlier in the same call (in allocation order) and fail. -/
def requestPinsGo (cfg : Nat → PinMode → PinPull → Bool) (comp : String)
    (items : List (Nat × PinMode × PinPull × String)) (acc : List Nat)
    (s : GpioState) : Bool × GpioState :=
  match items with
  | [] => (true, s)
  | (pin, mode, pull, _) :: rest =>
      let r := requestPin cfg s pin comp mode pull
      if r.1 then requestPinsGo cfg comp rest (acc ++ [pin]) r.2
      else
        (false, acc.foldl (fun st p => (releasePin st p comp).2) r.2)

/-- `GPIOManager.request_button_pins`: every button pin is requested as
`INPUT` with pull-up. -/
def requestButtonPins (cfg : Nat → PinMode → PinPull → Bool)
    (s : GpioState) (comp : String) : Bool × GpioState :=
  requestPinsGo cfg comp
    (BUTTON_PINS.map (fun pd => (pd.1, PinMode.INPUT, PinPull.UP, pd.2))) [] s

/-- `GPIOManager.request_oled_pins`: pins 8, 10, 11 are requested as `SPI`,
the rest as `OUTPUT`, all with no pull. -/
def requestOledPins (cfg : Nat → PinMode → PinPull → Bool)
    (s : GpioState) (comp : String) : Bool × GpioState :=
  requestPinsGo cfg comp
    (OLED_PINS.map (fun pd =>
      (pd.1, if pd.1 = 8 ∨ pd.1 = 10 ∨ pd.1 = 11 then PinMode.SPI else PinMode.OUTPUT,
       PinPull.NONE, pd.2))) [] s

/-- A hardware configuration oracle on which every `GPIO.setup` call
succeeds. -/
def cfgAll : Nat → PinMode → PinPull → Bool := fun _ _ _ => true

/-- Pointwise agreement of the three pin tables of two registry states. -/
def tablesEqAt (s t : GpioState) (p : Nat) : Prop :=
  s.allocated p = t.allocated p ∧ s.pinModes p = t.pinModes p ∧
  s.pinCallbacks p = t.pinCallbacks p

/-- The cleanup loop of a failed batch request: release each accumulated
pin in allocation order. -/
def releaseAll (s : GpioState) (acc : List Nat) (comp : String) : GpioState :=
  acc.foldl (fun st p => (releasePin st p comp).2) s

/-! ## LC29H GNSS pipeline (`lc29h_controller.py`) -/

/-- GNSS fix types (`FixType` enum). -/
inductive FixType where
  | NO_FIX | GPS_FIX | DGPS_FIX | PPS_FIX | RTK_FIXED
  | RTK_FLOAT | ESTIMATED | MANUAL | SIMULATION
  deriving DecidableEq, Repr

/-- Python `s.split(sep)` for a one-character separator, on the character
list: always at least one (possibly empty) piece. -/
def splitCharsOn (sep : Char) : List Char → List (List Char)
  | [] => [[]]
  | c :: rest =>
      match splitCharsOn sep rest with
      | [] => [[]]
      | hd :: tl => if c = sep then [] :: hd :: tl else (c :: hd) :: tl

/-- Python `sentence.split(',')`. -/
def pySplit (s : String) (sep : Char) : List String :=
  (splitCharsOn sep s.toList).map String.mk

/-- Python `s.endswith(suffix)`. -/
def pyEndsWith (s suffix : String) : Bool :=
  suffix.toList.isSuffixOf s.toList

/-- `FixType(value)`: the enum lookup raises `ValueError` (here: `none`)
outside 0–8. -/
def fixTypeOfInt : Int → Option FixType
  | 0 => some FixType.NO_FIX
  | 1 => some FixType.GPS_FIX
  | 2 => some FixType.DGPS_FIX
  | 3 => some FixType.PPS_FIX
  | 4 => some FixType.RTK_FIXED
  | 5 => some FixType.RTK_FLOAT
  | 6 => some FixType.ESTIMATED
  | 7 => some FixType.MANUAL
  | 8 => some FixType.SIMULATION
  | _ => none

/-- Numeric value of a digit run. -/
def digitsVal (l : List Char) : Nat :=
  l.foldl (fun a c => 10 * a + (c.toNat - 48)) 0

/-- Every character is a decimal digit. -/
def allDigits (l : List Char) : Bool :=
  l.all (fun c => c.isDigit)

/-- Python `int(s)` on the strings this pipeline feeds it: an optional
sign followed by decimal digits; anything else raises `ValueError`
(here: `none`). -/
def pyInt (s : String) : Option Int :=
  match s.toList with
  | [] => none
  | '-' :: ds =>
      if ds ≠ [] ∧ allDigits ds then some (-(digitsVal ds : Int)) else none
  | '+' :: ds =>
      if ds ≠ [] ∧ allDigits ds then some ((digitsVal ds : Int)) else none
  | ds => if allDigits ds then some ((digitsVal ds : Int)) else none

/-- Python `float(s)` on plain decimal notation (optional sign, digits,
optional point, digits), embedded as an exact rational.  The NMEA fields
this parser consumes never use exponent or `inf`/`nan` notation, so those
forms are not represented.  Failure (`ValueError`) is `none`. -/
def pyFloat (s : String) : Option ℚ :=
  let core : List Char → Option ℚ := fun cs =>
    let ip := cs.takeWhile Char.isDigit
    let rest := cs.dropWhile Char.isDigit
    match rest with
    | [] => if ip ≠ [] then some ((digitsVal ip : ℚ)) else none
    | '.' :: fp =>
        if allDigits fp ∧ (ip ≠ [] ∨ fp ≠ []) then
          some ((digitsVal ip : ℚ) + (digitsVal fp : ℚ) / (10 : ℚ) ^ fp.length)
        else none
    | _ => none
  match s.toList with
  | '-' :: cs => (core cs).map Neg.neg
  | '+' :: cs => core cs
  | cs => core cs

/-- `LC29HController._parse_coordinate`: convert an NMEA `DDDMM.MMMMM`
degrees-minutes string and a hemisphere letter to signed decimal degrees;
any malformed input yields `None`. -/
def parseCoordinate (coordStr direction : String) : Option ℚ :=
  if coordStr = "" ∨ direction = "" then none
  else
    let cs := coordStr.toList
    if '.' ∉ cs then none
    else
      let dp := cs.indexOf '.'
      if dp < 3 then none
      else
        match pyInt (String.mk (cs.take (dp - 2))),
              pyFloat (String.mk (cs.drop (dp - 2))) with
        | some d, some m =>
            let dd : ℚ := (d : ℚ) + m / 60
            some (if direction = "S" ∨ direction = "W" then -dd else dd)
        | _, _ => none

/-- `GNSSPosition.__init__` field set (floats as exact rationals). -/
structure GNSSPosition where
  latitude : ℚ
  longitude : ℚ
  elevation : ℚ
  fix_type : FixType
  satellites_used : Int
  hdop : ℚ
  vdop : ℚ
  pdop : ℚ
  accuracy_horizontal : ℚ
  accuracy_vertical : ℚ
  timestamp : Option ℚ
  valid : Bool
  deriving DecidableEq, Repr

/-- The freshly constructed `GNSSPosition`. -/
def initPosition : GNSSPosition :=
  { latitude := 0, longitude := 0, elevation := 0
  , fix_type := FixType.NO_FIX, satellites_used := 0
  , hdop := 999/10, vdop := 999/10, pdop := 999/10
  , accuracy_horizontal := 999/10, accuracy_vertical := 999/10
  , timestamp := none, valid := false }

/-- The `LC29HController` fields touched by the sentence pipeline:
`current_position` and the statistics counters. -/
structure ControllerState where
  position : GNSSPosition
  messages_received : Nat
  parsing_errors : Nat
  last_message_time : ℚ
  last_gga_time : ℚ
  last_rmc_time : ℚ
  deriving DecidableEq, Repr

/-- Controller state after `__init__`. -/
def initController : ControllerState :=
  { position := initPosition, messages_received := 0, parsing_errors := 0
  , last_message_time := 0, last_gga_time := 0, last_rmc_time := 0 }

/-- The latitude/longitude step of the GGA branch of
`_parse_basic_nmea` (it calls only `_parse_coordinate`, which swallows
its own exceptions, so this step cannot raise). -/
def ggaLatLon (parts : List String) (p : GNSSPosition) : GNSSPosition :=
  if parts.getD 2 "" ≠ "" ∧ parts.getD 4 "" ≠ "" then
    match parseCoordinate (parts.getD 2 "") (parts.getD 3 ""),
          parseCoordinate (parts.getD 4 "") (parts.getD 5 "") with
    | some lat, some lon => { p with latitude := lat, longitude := lon }
    | _, _ => p
  else p

/-- The `except (ValueError, IndexError): pass` exit of the GGA `try`
block: keep every mutation made so far, no timestamp update, no callback
trigger. -/
def ggaAbort (st : ControllerState) (q : GNSSPosition) :
    ControllerState × Bool :=
  ({ st with position := q }, false)

/-- Tail of the GGA `try` block:
`valid = bool(parts[6] and int(parts[6]) > 0)`, then the timestamp,
`last_gga_time`, and the position-callback trigger. -/
def ggaFinish (now : ℚ) (parts : List String) (st : ControllerState)
    (q : GNSSPosition) : ControllerState × Bool :=
  if parts.getD 6 "" = "" then
    ({ st with
        position := { q with valid := false, timestamp := some now }
      , last_gga_time := now }, true)
  else
    match pyInt (parts.getD 6 "") with
    | none => ggaAbort st q
    | some n =>
        ({ st with
            position := { q with valid := decide (0 < n), timestamp := some now }
          , last_gga_time := now }, true)

/-- `if parts[9]: elevation = float(parts[9])`. -/
def ggaStage9 (now : ℚ) (parts : List String) (st : ControllerState)
    (q : GNSSPosition) : ControllerState × Bool :=
  if parts.getD 9 "" = "" then ggaFinish now parts st q
  else
    match pyFloat (parts.getD 9 "") with
    | none => ggaAbort st q
    | some e => ggaFinish now parts st { q with elevation := e }

/-- `if parts[8]: hdop = float(parts[8])`. -/
def ggaStage8 (now : ℚ) (parts : List String) (st : ControllerState)
    (q : GNSSPosition) : ControllerState × Bool :=
  if parts.getD 8 "" = "" then ggaStage9 now parts st q
  else
    match pyFloat (parts.getD 8 "") with
    | none => ggaAbort st q
    | some h => ggaStage9 now parts st { q with hdop := h }

/-- `if parts[7]: satellites_used = int(parts[7])`. -/
def ggaStage7 (now : ℚ) (parts : List String) (st : ControllerState)
    (q : GNSSPosition) : ControllerState × Bool :=
  if parts.getD 7 "" = "" then ggaStage8 now parts st q
  else
    match pyInt (parts.getD 7 "") with
    | none => ggaAbort st q
    | some k => ggaStage8 now parts st { q with satellites_used := k }

/-- The GGA branch of `_parse_basic_nmea`.  The statements of the Python
`try` block run in source order (lat/lon, fix quality, satellites, hdop,
elevation, valid, timestamp); a `ValueError`/`IndexError` from any of them
jumps to the `except … : pass` handler (`ggaAbort`), keeping every
mutation made so far.  Returns the updated controller state and whether
position callbacks were triggered. -/
def parseGGA (now : ℚ) (parts : List String) (st : ControllerState) :
    ControllerState × Bool :=
  let p1 := ggaLatLon parts st.position
  if parts.getD 6 "" = "" then ggaStage7 now parts st p1
  else
    match pyInt (parts.getD 6 "") with
    | none => ggaAbort st p1
    | some n =>
        match fixTypeOfInt n with
        | none => ggaAbort st p1
        | some ft => ggaStage7 now parts st { p1 with fix_type := ft }

/-- The RMC branch of `_parse_basic_nmea`: optionally update
latitude/longitude, set `valid` from the `A`/`V` status character, stamp
the time.  No callbacks are triggered in this branch. -/
def parseRMC (now : ℚ) (parts : List String) (st : ControllerState) :
    ControllerState × Bool :=
  let p0 := st.position
  let p1 :=
    if parts.getD 3 "" ≠ "" ∧ parts.getD 5 "" ≠ "" then
      match parseCoordinate (parts.getD 3 "") (parts.getD 4 ""),
            parseCoordinate (parts.getD 5 "") (parts.getD 6 "") with
      | some lat, some lon => { p0 with latitude := lat, longitude := lon }
      | _, _ => p0
    else p0
  let p2 := { p1 with valid := parts.getD 2 "" == "A", timestamp := some now }
  ({ st with position := p2, last_rmc_time := now }, false)

/-- `LC29HController._parse_basic_nmea`: split on commas, dispatch on the
sentence type suffix and field count. -/
def parseBasicNmea (now : ℚ) (sentence : String) (st : ControllerState) :
    ControllerState × Bool :=
  let parts := pySplit sentence ','
  if parts.length < 3 then (st, false)
  else
    let sType := parts.getD 0 ""
    if pyEndsWith sType "GGA" ∧ 15 ≤ parts.length then parseGGA now parts st
    else if pyEndsWith sType "RMC" ∧ 12 ≤ parts.length then parseRMC now parts st
    else (st, false)

/-- Result of one structured-parsing attempt: the mutated controller
state, whether position callbacks were triggered, and the exception that
escaped the parser, if any. -/
structure ParseOutcome where
  state : ControllerState
  callbacks : Bool
  err : Option String
  deriving DecidableEq, Repr

/-- `LC29HController._process_nmea_sentence`: bump the received counter
and the last-message time unconditionally, then attempt structured
parsing; an exception escaping the parser is caught and counted in
`parsing_errors`.  The parser (`_parse_with_pynmea2` or
`_parse_basic_nmea`, whichever is installed) is a parameter. -/
def processNmeaSentence (parser : String → ControllerState → ParseOutcome)
    (now : ℚ) (sentence : String) (st : ControllerState) :
    ControllerState × Bool :=
  let st₁ := { st with
                messages_received := st.messages_received + 1
              , last_message_time := now }
  let r := parser sentence st₁
  match r.err with
  | some _ => ({ r.state with parsing_errors := r.state.parsing_errors + 1 }, false)
  | none => (r.state, r.callbacks)

/-- The fallback parser as installed when `pynmea2` is unavailable: every
fallible statement of `_parse_basic_nmea` sits inside a
`try`/`except (ValueError, IndexError): pass` block, so no exception
escapes it. -/
def basicParser (now : ℚ) : String → ControllerState → ParseOutcome :=
  fun sentence st =>
    let r := parseBasicNmea now sentence st
    { state := r.1, callbacks := r.2, err := none }

/-- Fold a timed sentence stream through the processing path. -/
def runSentences (l : List (ℚ × String)) (st : ControllerState) :
    ControllerState :=
  l.foldl (fun s i => (processNmeaSentence (basicParser i.1) i.1 i.2 s).1) st

/-- The parser left the statistics counters of the controller alone. -/
def statsPreserved (x st : ControllerState) : Prop :=
  x.messages_received = st.messages_received ∧
  x.parsing_errors = st.parsing_errors ∧
  x.last_message_time = st.last_message_time

/-- A parse result either left `valid`/`timestamp` untouched or stamped
the position with the current time. -/
def validTsOk (now : ℚ) (q : GNSSPosition) (x : ControllerState × Bool) : Prop :=
  (x.1.position.valid = q.valid ∧ x.1.position.timestamp = q.timestamp) ∨
  x.1.position.timestamp = some now

/-- A well-formed RMC sentence with status `A` (active). -/
def rmcSentenceA : String :=
  "$GNRMC,123519,A,4807.038,N,01131.000,E,022.4,084.4,230394,003.1,W"

/-- A well-formed GGA sentence with fix quality 4 (RTK fixed). -/
def ggaSentence4 : String :=
  "$GNGGA,123456.00,4012.34567,N,07401.23456,W,4,12,0.8,45.2,M,-33.2,M,1.2,0000*5A"

/-- The same GGA sentence with out-of-range fix quality 9. -/
def ggaSentence9 : String :=
  "$GNGGA,123456.00,4012.34567,N,07401.23456,W,9,12,0.8,45.2,M,-33.2,M,1.2,0000*5A"

/-- Registry state used to exercise `request_pin`: pin 21 owned by
component `"a"`, components `"a"` and `"b"` registered. -/
def gpioS1 : GpioState :=
  { allocated := fun p => if p = 21 then some "a" else none
  , pinModes := fun p => if p = 21 then some PinMode.INPUT else none
  , pinCallbacks := fun _ => none
  , registered := fun c => c == "a" || c == "b" }

/-- Registry state used to exercise `request_button_pins`: button pin 21
owned by component `"c"`, button pin 20 owned by component `"d"`. -/
def gpioS2 : GpioState :=
  { allocated := fun p =>
      if p = 21 then some "c" else if p = 20 then some "d" else none
  , pinModes := fun p =>
      if p = 21 ∨ p = 20 then some PinMode.INPUT else none
  , pinCallbacks := fun _ => none
  , registered := fun c => c == "c" || c == "d" }

/-! ## Button manager (`button_manager.py`) -/

/-- `ButtonType` enum: the Waveshare HAT keys and joystick directions. -/
inductive ButtonType where
  | KEY1 | KEY2 | KEY3
  | JOY_UP | JOY_DOWN | JOY_LEFT | JOY_RIGHT | JOY_PRESS
  deriving DecidableEq, Repr

/-- `ButtonEvent` enum. -/
inductive ButtonEvent where
  | PRESS | RELEASE | LONG_PRESS
  deriving DecidableEq, Repr

/-- `ButtonManager.BUTTON_PINS`, in Python dict insertion order: the
iteration order of both the polling loop and `_check_long_presses`. -/
def buttonManagerPins : List (ButtonType × Nat) :=
  [(ButtonType.KEY1, 21), (ButtonType.KEY2, 20), (ButtonType.KEY3, 16),
   (ButtonType.JOY_UP, 6), (ButtonType.JOY_DOWN, 19), (ButtonType.JOY_LEFT, 5),
   (ButtonType.JOY_RIGHT, 26), (ButtonType.JOY_PRESS, 13)]

/-- An entry of the shared event queue
(`{'button': …, 'event': …, 'timestamp': …}`). -/
structure BMEvent where
  button : ButtonType
  event : ButtonEvent
  timestamp : ℚ
  deriving DecidableEq, Repr

/-- The `ButtonManager` state touched by the polling/dispatch path:
`button_states`, `button_press_times`, `_last_change_times` (a key is
absent until the first accepted change) and `event_queue`.  Clock values
(`time.time()`) are rationals; a poll iteration is modelled as one
instant, so every call inside it sees the same `now`. -/
structure BMState where
  states : ButtonType → Bool
  pressTimes : ButtonType → ℚ
  lastChange : ButtonType → Option ℚ
  queue : List BMEvent

/-- State after `_init_buttons`: all released, press times zeroed, no
debounce history, empty queue. -/
def initBMState : BMState :=
  { states := fun _ => false
  , pressTimes := fun _ => 0
  , lastChange := fun _ => none
  , queue := [] }

/-- `self.debounce_time = 0.05`. -/
def debounce_time : ℚ := 1/20

/-- `self.long_press_time = 1.0`. -/
def long_press_time : ℚ := 1

/-- `_trigger_event`: append the event to the shared queue.  The callback
dispatch the source performs next is modelled by `runButtonCallbacks`
below; callbacks do not mutate the manager state. -/
def triggerEvent (b : ButtonType) (ev : ButtonEvent) (now : ℚ)
    (s : BMState) : BMState :=
  { s with queue := s.queue ++ [⟨b, ev, now⟩] }

/-- Body of `_handle_button_state_change` after the debounce gate:
record the change time, then handle the press edge (set state, remember
the press time, emit `PRESS`) or the release edge (clear state, emit
`RELEASE`, reset the press time); a release of an unpressed button only
records the change time. -/
def handleAccepted (b : ButtonType) (pressed : Bool) (now : ℚ)
    (s : BMState) : BMState :=
  let s₁ := { s with lastChange := setF s.lastChange b (some now) }
  if pressed then
    let s₂ := { s₁ with
                 states := setF s₁.states b true
               , pressTimes := setF s₁.pressTimes b now }
    triggerEvent b ButtonEvent.PRESS now s₂
  else
    if s₁.states b then
      let s₂ := { s₁ with states := setF s₁.states b false }
      let s₃ := triggerEvent b ButtonEvent.RELEASE now s₂
      { s₃ with pressTimes := setF s₃.pressTimes b 0 }
    else s₁

/-- `_handle_button_state_change`: ignore the change if it comes sooner
than the debounce window after the last accepted change of this button. -/
def handleButtonStateChange (b : ButtonType) (pressed : Bool) (now : ℚ)
    (s : BMState) : BMState :=
  match s.lastChange b with
  | some t =>
      if now - t < debounce_time then s
      else handleAccepted b pressed now s
  | none => handleAccepted b pressed now s

/-- One button of `_check_long_presses`: while pressed, with a live press
time, and past the threshold, emit `LONG_PRESS` once and zero the press
time to prevent repeats. -/
def checkLongPressFor (now : ℚ) (s : BMState) (b : ButtonType) : BMState :=
  if s.states b = true ∧ 0 < s.pressTimes b ∧
      long_press_time ≤ now - s.pressTimes b then
    let s₁ := triggerEvent b ButtonEvent.LONG_PRESS now s
    { s₁ with pressTimes := setF s₁.pressTimes b 0 }
  else s

/-- `_check_long_presses` over all buttons in dict order. -/
def checkLongPresses (now : ℚ) (s : BMState) : BMState :=
  buttonManagerPins.foldl (fun st bp => checkLongPressFor now st bp.1) s

/-- One button of the polling loop body: read the pin level through the
registry (`none` models a failed read, skipped), invert it (pressed ==
low), and hand any edge to the state-change handler. -/
def pollButton (raw : Nat → Option Bool) (now : ℚ) (s : BMState)
    (bp : ButtonType × Nat) : BMState :=
  match raw bp.2 with
  | none => s
  | some lvl =>
      let cur : Bool := lvl == false
      if cur ≠ s.states bp.1 then handleButtonStateChange bp.1 cur now s
      else s

/-- One iteration of `_polling_loop`: scan all buttons, then run the
long-press check. -/
def pollStep (raw : Nat → Option Bool) (now : ℚ) (s : BMState) : BMState :=
  checkLongPresses now (buttonManagerPins.foldl (pollButton raw now) s)

/-- Run a schedule of poll iterations (pin levels and clock per
iteration) from the initial state. -/
def runPolls (sched : List ((Nat → Option Bool) × ℚ)) : BMState :=
  sched.foldl (fun s i => pollStep i.1 i.2 s) initBMState

/-- Events of one button, in queue (= detection) order. -/
def eventsFor (b : ButtonType) (q : List BMEvent) : List BMEvent :=
  q.filter (fun e => decide (e.button = b))

/-- Event kinds of one button, in queue order. -/
def kindsFor (b : ButtonType) (q : List BMEvent) : List ButtonEvent :=
  (eventsFor b q).map (fun e => e.event)

/-- Timestamps of the press/release (edge) events of one button, in queue
order; long-press events are timer events, not edges. -/
def prTimesFor (b : ButtonType) (q : List BMEvent) : List ℚ :=
  (q.filter (fun e =>
    decide (e.button = b) && decide (e.event ≠ ButtonEvent.LONG_PRESS))).map
    (fun e => e.timestamp)

/-- Occurrences of one event kind in a kind list. -/
def countKind (ev : ButtonEvent) (l : List ButtonEvent) : Nat :=
  (l.filter (fun e => decide (e = ev))).length

/-- Phase of one button along its event word: `Released` (initial),
`Pressed` (press seen), or `fired` (the one long-press of this hold
already emitted). -/
inductive PressPhase where
  | idle | pressed | fired
  deriving DecidableEq, Repr

/-- The legal transitions of a per-button event word. -/
def phaseStep : PressPhase → ButtonEvent → Option PressPhase
  | PressPhase.idle, ButtonEvent.PRESS => some PressPhase.pressed
  | PressPhase.pressed, ButtonEvent.LONG_PRESS => some PressPhase.fired
  | PressPhase.pressed, ButtonEvent.RELEASE => some PressPhase.idle
  | PressPhase.fired, ButtonEvent.RELEASE => some PressPhase.idle
  | _, _ => none

/-- Run a kind word through the phase automaton from `idle`; `none`
means the word is not a legal press/long-press/release path. -/
def phaseRun (l : List ButtonEvent) : Option PressPhase :=
  l.foldl (fun acc ev => acc.bind (fun ph => phaseStep ph ev)) (some PressPhase.idle)

/-- The phase the state machine is in for one button, read off its
state: pressed with a live press time, pressed after the long-press
fired (press time zeroed), or released. -/
def phaseOf (s : BMState) (b : ButtonType) : PressPhase :=
  if s.states b then
    (if 0 < s.pressTimes b then PressPhase.pressed else PressPhase.fired)
  else PressPhase.idle

/-- Inductive invariant of the polling state machine (per button): press
times are non-negative; a live press time means the button is pressed
and its `PRESS` event with that timestamp is in the queue; the button's
event word is a legal path ending in the phase the state encodes; and
every `LONG_PRESS` in the queue is preceded by a `PRESS` of the same
button at least `long_press_time` earlier. -/
def Inv (s : BMState) : Prop :=
  ∀ b : ButtonType,
    0 ≤ s.pressTimes b ∧
    (0 < s.pressTimes b →
      s.states b = true ∧ BMEvent.mk b ButtonEvent.PRESS (s.pressTimes b) ∈ s.queue) ∧
    phaseRun (kindsFor b s.queue) = some (phaseOf s b) ∧
    (∀ q₁ e q₂, s.queue = q₁ ++ e :: q₂ → e.button = b →
      e.event = ButtonEvent.LONG_PRESS →
      ∃ t, BMEvent.mk b ButtonEvent.PRESS t ∈ q₁ ∧
        long_press_time ≤ e.timestamp - t)

/-- Inductive debounce invariant (per button): without debounce history
there are no edge events; with last accepted change at `ℓ`, every edge
event is at or before `ℓ` and consecutive edge events are at least the
debounce window apart. -/
def DebInv (s : BMState) : Prop :=
  ∀ b : ButtonType,
    (s.lastChange b = none → prTimesFor b s.queue = []) ∧
    (∀ t, s.lastChange b = some t →
      (∀ u ∈ prTimesFor b s.queue, u ≤ t) ∧
      (prTimesFor b s.queue).Pairwise (fun a c => a + debounce_time ≤ c))

/-- The callback loop of `_trigger_event`: run every registered callback
for the (button, event) key in registration order; `try`/`except` around
each call means an error is recorded and iteration continues. -/
def runButtonCallbacks (cbs : List (ButtonType → ButtonEvent → Except String Unit))
    (b : ButtonType) (ev : ButtonEvent) : List (Except String Unit) :=
  match cbs with
  | [] => []
  | cb :: rest => cb b ev :: runButtonCallbacks rest b ev

/-- The callback loop of `_trigger_position_callbacks`, same shape. -/
def runPositionCallbacks (cbs : List (GNSSPosition → Except String Unit))
    (p : GNSSPosition) : List (Except String Unit) :=
  match cbs with
  | [] => []
  | cb :: rest => cb p :: runPositionCallbacks rest p

/-- A button callback that succeeds. -/
def cbOk : ButtonType → ButtonEvent → Except String Unit := fun _ _ => Except.ok ()

/-- A button callback that raises. -/
def cbBad : ButtonType → ButtonEvent → Except String Unit :=
  fun _ _ => Except.error "boom"

/-- A position callback that succeeds. -/
def pcOk : GNSSPosition → Except String Unit := fun _ => Except.ok ()

/-- A position callback that raises. -/
def pcBad : GNSSPosition → Except String Unit := fun _ => Except.error "boom"

/-- Pin levels with KEY1 (pin 21) held low (pressed) and everything else
high (released). -/
def rawPressK1 : Nat → Option Bool := fun p => if p = 21 then some false else some true

/-- Pin levels with every pin high (all buttons released). -/
def rawAllUp : Nat → Option Bool := fun _ => some true

/-- Schedule: press KEY1 at t = 1, keep holding at t = 5/2 (past the
1 s long-press threshold). -/
def schedHold : List ((Nat → Option Bool) × ℚ) :=
  [(rawPressK1, 1), (rawPressK1, 5/2)]

/-- Schedule: press KEY1 at t = 1; the release edge appears at
t = 1.03 (inside the 50 ms debounce window, so it is suppressed) and
persists so the poll at t = 1.06 re-detects and accepts it. -/
def schedBounce : List ((Nat → Option Bool) × ℚ) :=
  [(rawPressK1, 1), (rawAllUp, 1 + 3/100), (rawAllUp, 1 + 6/100)]

/-! ## Theorems -/

theorem setF_same {α β : Type} [DecidableEq α] (f : α → β) (a : α) (b : β) :
    setF f a b a = b := by simp [setF]

theorem setF_other {α β : Type} [DecidableEq α] (f : α → β) (a x : α) (b : β)
    (h : x ≠ a) : setF f a b x = f x := by simp [setF, h]

theorem releaseAll_restores (comp : String) :
    ∀ (acc : List Nat) (s s₀ : GpioState),
    acc.Nodup →
    (∀ p ∈ acc, s.allocated p = some comp ∧ s₀.allocated p = none ∧
      s₀.pinModes p = none ∧ s₀.pinCallbacks p = none) →
    (∀ p, p ∉ acc → tablesEqAt s s₀ p) →
    ∀ p, tablesEqAt (releaseAll s acc comp) s₀ p := by
  intro acc
  induction acc with
  | nil =>
    intro s s₀ _ _ hout p
    exact hout p (by simp)
  | cons a tl ih =>
    intro s s₀ hnd hin hout p
    have ha := hin a (by simp)
    have hstep : (releasePin s a comp).2 =
        { s with
          allocated := setF s.allocated a none
        , pinModes := setF s.pinModes a none
        , pinCallbacks := setF s.pinCallbacks a none } := by
      simp [releasePin, ha.1]
    have hrw : releaseAll s (a :: tl) comp
        = releaseAll ((releasePin s a comp).2) tl comp := rfl
    rw [hrw, hstep]
    have hanotl : a ∉ tl := (List.nodup_cons.mp hnd).1
    apply ih _ s₀ (List.nodup_cons.mp hnd).2
    · intro q hq
      have hqa : q ≠ a := fun h => hanotl (h ▸ hq)
      have := hin q (by simp [hq])
      simpa [setF_other _ _ _ _ hqa] using this
    · intro q hq
      by_cases hqa : q = a
      · subst hqa
        exact ⟨by simp [setF_same, ha.2.1.symm],
               by simp [setF_same, ha.2.2.1.symm],
               by simp [setF_same, ha.2.2.2.symm]⟩
      · have hqn : q ∉ a :: tl := by simp [hqa, hq]
        have := hout q hqn
        simpa [tablesEqAt, setF_other _ _ _ _ hqa] using this

theorem requestPinsGo_fail_restores (cfg : Nat → PinMode → PinPull → Bool)
    (comp : String) :
    ∀ (items : List (Nat × PinMode × PinPull × String)) (acc : List Nat)
      (s s₀ : GpioState),
    (acc ++ items.map (fun pd => pd.1)).Nodup →
    (∀ p, p ∉ acc → tablesEqAt s s₀ p) →
    (∀ p ∈ acc, s.allocated p = some comp ∧ s₀.allocated p = none) →
    (∀ p, s₀.allocated p = none → s₀.pinModes p = none ∧ s₀.pinCallbacks p = none) →
    (∀ pd ∈ items, s₀.allocated pd.1 ≠ some comp) →
    (requestPinsGo cfg comp items acc s).1 = false →
    ∀ p, tablesEqAt (requestPinsGo cfg comp items acc s).2 s₀ p := by
  intro items
  induction items with
  | nil =>
    intro acc s s₀ _ _ _ _ _ hfail
    simp [requestPinsGo] at hfail
  | cons hd tl ih =>
    obtain ⟨pin, mode, pull, d⟩ := hd
    intro acc s s₀ hnd hout hin hwf hnot hfail
    have hnd' : (acc ++ pin :: tl.map (fun pd => pd.1)).Nodup := by
      simpa using hnd
    have hpinacc : pin ∉ acc := by
      intro hmem
      exact ((List.nodup_append.mp hnd').2.2 hmem) (by simp)
    have hclean : ∀ p, tablesEqAt (releaseAll s acc comp) s₀ p := by
      apply releaseAll_restores comp acc s s₀
        (List.Nodup.of_append_left hnd')
      · intro q hq
        refine ⟨(hin q hq).1, (hin q hq).2, ?_, ?_⟩
        · exact (hwf q (hin q hq).2).1
        · exact (hwf q (hin q hq).2).2
      · exact hout
    by_cases hreg : s.registered comp = false
    · have hr : requestPin cfg s pin comp mode pull = (false, s) := by
        simp [requestPin, hreg]
      have hg : requestPinsGo cfg comp ((pin, mode, pull, d) :: tl) acc s
          = (false, releaseAll s acc comp) := by
        simp [requestPinsGo, hr, releaseAll]
      rw [hg]
      exact hclean
    · have hreg' : s.registered comp = true := by
        revert hreg; cases s.registered comp <;> simp
      cases halloc : s.allocated pin with
      | some owner =>
        by_cases howner : owner = comp
        · exfalso
          subst howner
          have := (hout pin hpinacc).1
          rw [halloc] at this
          exact hnot (pin, mode, pull, d) (by simp) this.symm
        · have hr : requestPin cfg s pin comp mode pull = (false, s) := by
            simp [requestPin, hreg', halloc, howner]
          have hg : requestPinsGo cfg comp ((pin, mode, pull, d) :: tl) acc s
              = (false, releaseAll s acc comp) := by
            simp [requestPinsGo, hr, releaseAll]
          rw [hg]
          exact hclean
      | none =>
        by_cases hcfg : cfg pin mode pull = true
        · have hr : requestPin cfg s pin comp mode pull =
              (true, { s with
                        allocated := setF s.allocated pin (some comp)
                      , pinModes := setF s.pinModes pin (some mode) }) := by
            simp [requestPin, hreg', halloc, hcfg]
          have hg : requestPinsGo cfg comp ((pin, mode, pull, d) :: tl) acc s
              = requestPinsGo cfg comp tl (acc ++ [pin])
                  { s with
                    allocated := setF s.allocated pin (some comp)
                  , pinModes := setF s.pinModes pin (some mode) } := by
            simp [requestPinsGo, hr]
          rw [hg] at hfail ⊢
          apply ih (acc ++ [pin]) _ s₀ ?_ ?_ ?_ hwf ?_ hfail
          · simpa [List.append_assoc] using hnd'
          · intro q hq
            have hqacc : q ∉ acc := fun h => hq (by simp [h])
            have hqpin : q ≠ pin := fun h => hq (by simp [h])
            have := hout q hqacc
            simpa [tablesEqAt, setF_other _ _ _ _ hqpin] using this
          · intro q hq
            rcases List.mem_append.mp hq with hq' | hq'
            · have hqpin : q ≠ pin := fun h => hpinacc (h ▸ hq')
              exact ⟨by simpa [setF_other _ _ _ _ hqpin] using (hin q hq').1,
                     (hin q hq').2⟩
            · have hqpin : q = pin := by simpa using hq'
              subst hqpin
              refine ⟨by simp [setF_same], ?_⟩
              have := (hout q hpinacc).1
              rw [halloc] at this
              exact this.symm
          · intro pd hpd
            exact hnot pd (by simp [hpd])
        · have hcfg' : cfg pin mode pull = false := by
            revert hcfg; cases cfg pin mode pull <;> simp
          have hr : requestPin cfg s pin comp mode pull = (false, s) := by
            simp [requestPin, hreg', halloc, hcfg']
          have hg : requestPinsGo cfg comp ((pin, mode, pull, d) :: tl) acc s
              = (false, releaseAll s acc comp) := by
            simp [requestPinsGo, hr, releaseAll]
          rw [hg]
          exact hclean

/-- C1: a pin has at most one owner (the allocation table is a map pin →
component); `request_pin` on a pin owned by a different component fails for
any registered requester and returns the state with allocation, pin-mode
and callback tables untouched; a repeated `request_pin` by the owning
component itself succeeds and also returns the state untouched. -/
theorem requestPin_exclusive_and_idempotent
    (cfg : Nat → PinMode → PinPull → Bool) (s : GpioState) (p : Nat)
    (c c2 : String) (m m' : PinMode) (pl pl' : PinPull)
    (hreg2 : s.registered c2 = true) (hne : c2 ≠ c)
    (hown : s.allocated p = some c) (hreg : s.registered c = true) :
    (∀ c', s.allocated p = some c' → c' = c) ∧
    requestPin cfg s p c2 m pl = (false, s) ∧
    requestPin cfg s p c m' pl' = (true, s) := by
  refine ⟨fun c' h => by rw [hown] at h; exact (Option.some.inj h).symm, ?_, ?_⟩
  · simp [requestPin, hreg2, hown, Ne.symm hne]
  · simp [requestPin, hreg, hown]

/-- Witness for C1 at a concrete registry state. -/
theorem requestPin_exclusive_and_idempotent_witness :
    requestPin cfgAll gpioS1 21 "b" PinMode.INPUT PinPull.UP = (false, gpioS1) ∧
    requestPin cfgAll gpioS1 21 "a" PinMode.INPUT PinPull.NONE = (true, gpioS1) := by
  have h := requestPin_exclusive_and_idempotent cfgAll gpioS1 21 "a" "b"
    PinMode.INPUT PinMode.INPUT PinPull.UP PinPull.NONE
    (by decide) (by decide) (by decide) (by decide)
  exact ⟨h.2.1, h.2.2⟩

/-- Counterexample for C3 as stated: component `"c"` owns button pin 21
before the call; `request_button_pins` for `"c"` re-acquires pin 21
idempotently, fails on pin 20 (owned by `"d"`), and the cleanup then
releases pin 21 — so the failed call does NOT leave the caller's owned set
unchanged: `"c"` has lost pin 21. -/
theorem requestButtonPins_fail_not_state_preserving :
    (requestButtonPins cfgAll gpioS2 "c").1 = false ∧
    gpioS2.allocated 21 = some "c" ∧
    (requestButtonPins cfgAll gpioS2 "c").2.allocated 21 = none := by
  refine ⟨?_, by decide, ?_⟩ <;> decide

/-- C3 amended: a failed `request_button_pins` call releases every pin the
loop acquired earlier in the same call (including pins the caller already
owned, which the loop re-acquires idempotently); consequently, when the
caller owned none of the button pins before the call, a failed call leaves
the allocation, pin-mode and callback tables pointwise unchanged. -/
theorem requestButtonPins_all_or_nothing
    (cfg : Nat → PinMode → PinPull → Bool) (s : GpioState) (comp : String)
    (hnotown : ∀ pd ∈ BUTTON_PINS, s.allocated pd.1 ≠ some comp)
    (hwf : ∀ p, s.allocated p = none →
      s.pinModes p = none ∧ s.pinCallbacks p = none)
    (hfail : (requestButtonPins cfg s comp).1 = false) (p : Nat) :
    tablesEqAt (requestButtonPins cfg s comp).2 s p := by
  apply requestPinsGo_fail_restores cfg comp _ [] s s ?_ ?_ ?_ hwf ?_ hfail
  · simp only [List.nil_append, List.map_map]
    have : (BUTTON_PINS.map (fun pd => (pd.1, PinMode.INPUT, PinPull.UP, pd.2))).map
        (fun pd => pd.1) = [21, 20, 16, 6, 19, 5, 26, 13] := by decide
    simp only [List.map_map] at this
    rw [this]; decide
  · intro q _
    exact ⟨rfl, rfl, rfl⟩
  · intro q hq
    simp at hq
  · intro pd hpd
    rcases List.mem_map.mp hpd with ⟨q, hq, rfl⟩
    exact hnotown q hq

/-- Witness for the amended C3 at a concrete state: no component is
registered, so the batch call fails at the first pin and the tables are
unchanged (checked at pin 21). -/
theorem requestButtonPins_all_or_nothing_witness :
    tablesEqAt (requestButtonPins cfgAll initGpio "x").2 initGpio 21 :=
  requestButtonPins_all_or_nothing cfgAll initGpio "x"
    (by decide) (fun _ _ => ⟨rfl, rfl⟩) (by decide) 21

theorem ggaLatLon_preserves (parts : List String) (p : GNSSPosition) :
    (ggaLatLon parts p).fix_type = p.fix_type ∧
    (ggaLatLon parts p).satellites_used = p.satellites_used ∧
    (ggaLatLon parts p).hdop = p.hdop ∧
    (ggaLatLon parts p).elevation = p.elevation ∧
    (ggaLatLon parts p).valid = p.valid ∧
    (ggaLatLon parts p).timestamp = p.timestamp := by
  unfold ggaLatLon
  repeat' split
  all_goals exact ⟨rfl, rfl, rfl, rfl, rfl, rfl⟩

theorem ggaFinish_stats (now : ℚ) (parts : List String) (st : ControllerState)
    (q : GNSSPosition) : statsPreserved (ggaFinish now parts st q).1 st := by
  unfold ggaFinish ggaAbort statsPreserved
  repeat' split
  all_goals exact ⟨rfl, rfl, rfl⟩

theorem ggaStage9_stats (now : ℚ) (parts : List String) (st : ControllerState)
    (q : GNSSPosition) : statsPreserved (ggaStage9 now parts st q).1 st := by
  unfold ggaStage9
  repeat' split
  all_goals first
    | exact ggaFinish_stats now parts st _
    | exact ⟨rfl, rfl, rfl⟩

theorem ggaStage8_stats (now : ℚ) (parts : List String) (st : ControllerState)
    (q : GNSSPosition) : statsPreserved (ggaStage8 now parts st q).1 st := by
  unfold ggaStage8
  repeat' split
  all_goals first
    | exact ggaStage9_stats now parts st _
    | exact ⟨rfl, rfl, rfl⟩

theorem ggaStage7_stats (now : ℚ) (parts : List String) (st : ControllerState)
    (q : GNSSPosition) : statsPreserved (ggaStage7 now parts st q).1 st := by
  unfold ggaStage7
  repeat' split
  all_goals first
    | exact ggaStage8_stats now parts st _
    | exact ⟨rfl, rfl, rfl⟩

theorem parseBasicNmea_stats (now : ℚ) (s : String) (st : ControllerState) :
    statsPreserved (parseBasicNmea now s st).1 st := by
  unfold parseBasicNmea parseGGA parseRMC
  dsimp only
  repeat' split
  all_goals first
    | exact ggaStage7_stats now _ st _
    | exact ⟨rfl, rfl, rfl⟩

theorem ggaFinish_validTs (now : ℚ) (parts : List String) (st : ControllerState)
    (q : GNSSPosition) : validTsOk now q (ggaFinish now parts st q) := by
  unfold ggaFinish ggaAbort validTsOk
  repeat' split
  all_goals first
    | exact Or.inr rfl
    | exact Or.inl ⟨rfl, rfl⟩

theorem ggaStage9_validTs (now : ℚ) (parts : List String) (st : ControllerState)
    (q : GNSSPosition) : validTsOk now q (ggaStage9 now parts st q) := by
  unfold ggaStage9
  repeat' split
  all_goals first
    | exact ggaFinish_validTs now parts st _
    | exact Or.inl ⟨rfl, rfl⟩

theorem ggaStage8_validTs (now : ℚ) (parts : List String) (st : ControllerState)
    (q : GNSSPosition) : validTsOk now q (ggaStage8 now parts st q) := by
  unfold ggaStage8
  repeat' split
  all_goals first
    | exact ggaStage9_validTs now parts st _
    | exact Or.inl ⟨rfl, rfl⟩

theorem ggaStage7_validTs (now : ℚ) (parts : List String) (st : ControllerState)
    (q : GNSSPosition) : validTsOk now q (ggaStage7 now parts st q) := by
  unfold ggaStage7
  repeat' split
  all_goals first
    | exact ggaStage8_validTs now parts st _
    | exact Or.inl ⟨rfl, rfl⟩

theorem parseBasicNmea_validTs (now : ℚ) (s : String) (st : ControllerState) :
    validTsOk now st.position (parseBasicNmea now s st) := by
  unfold parseBasicNmea parseGGA parseRMC
  dsimp only
  repeat' split
  all_goals first
    | exact Or.inl ⟨rfl, rfl⟩
    | exact Or.inr rfl
    | skip
  all_goals
    refine (?_ : validTsOk now (ggaLatLon (pySplit s ',') st.position) _).imp ?_ id
    · first
      | exact ggaStage7_validTs now _ st _
      | exact Or.inl ⟨rfl, rfl⟩
    · intro h
      have hp := ggaLatLon_preserves (pySplit s ',') st.position
      exact ⟨h.1.trans hp.2.2.2.2.1, h.2.trans hp.2.2.2.2.2⟩

theorem processNmea_basic_state (now : ℚ) (s : String) (st : ControllerState) :
    (processNmeaSentence (basicParser now) now s st).1
      = (parseBasicNmea now s { st with
          messages_received := st.messages_received + 1
        , last_message_time := now }).1 := rfl

theorem runSentences_valid_inv (l : List (ℚ × String)) :
    ∀ st : ControllerState,
    (st.position.valid = true → st.position.timestamp.isSome) →
    ((runSentences l st).position.valid = true →
      (runSentences l st).position.timestamp.isSome) := by
  induction l with
  | nil => intro st h; exact h
  | cons i tl ih =>
    intro st h
    have hrw : runSentences (i :: tl) st
        = runSentences tl ((processNmeaSentence (basicParser i.1) i.1 i.2 st).1) := rfl
    rw [hrw]
    apply ih
    rw [processNmea_basic_state]
    rcases parseBasicNmea_validTs i.1 i.2 { st with
        messages_received := st.messages_received + 1
      , last_message_time := i.1 } with ⟨hv, ht⟩ | ht
    · intro hval
      rw [ht]
      exact h (hv ▸ hval)
    · intro _
      rw [ht]
      rfl

/-- Counterexample for C2 as stated: a single RMC sentence with status
`A`, processed from the initial state, sets `valid = true` and stamps the
time but never touches `fix_type`, which stays `NO_FIX` — so
`valid = true` does not imply `fix_type ≠ NO_FIX`. -/
theorem rmc_valid_without_fix :
    (runSentences [(5, rmcSentenceA)] initController).position.valid = true ∧
    (runSentences [(5, rmcSentenceA)] initController).position.fix_type
      = FixType.NO_FIX := by
  constructor <;> decide

/-- C2 amended: after processing any sequence of sentences from the
initial record, `valid = true` implies the timestamp has been set; the
`fix_type ≠ NO_FIX` half of the claimed invariant fails (see the
counterexample), because the RMC branch sets `valid` without touching
`fix_type`. -/
theorem valid_implies_timestamp (l : List (ℚ × String)) :
    (runSentences l initController).position.valid = true →
    ((runSentences l initController).position.timestamp).isSome :=
  runSentences_valid_inv l initController (by decide)

/-- Witness for the amended C2 on a concrete GGA stream. -/
theorem valid_implies_timestamp_witness :
    ((runSentences [(7, ggaSentence4)] initController).position.timestamp).isSome :=
  valid_implies_timestamp [(7, ggaSentence4)] (by decide)

/-- C7: for every sentence, `_process_nmea_sentence` increments the
received counter by exactly one and refreshes the last-message time
unconditionally; the error counter is incremented exactly when an
exception escapes the structured parser; and the installed fallback
parser never lets an exception escape (so the read loop survives a 100%
malformed stream). -/
theorem processNmeaSentence_contract
    (parser : String → ControllerState → ParseOutcome)
    (hp : ∀ s st, statsPreserved (parser s st).state st)
    (now : ℚ) (sentence : String) (st : ControllerState) :
    (processNmeaSentence parser now sentence st).1.messages_received
        = st.messages_received + 1 ∧
    (processNmeaSentence parser now sentence st).1.last_message_time = now ∧
    (processNmeaSentence parser now sentence st).1.parsing_errors
        = (if (parser sentence { st with
              messages_received := st.messages_received + 1
            , last_message_time := now }).err.isSome
           then st.parsing_errors + 1 else st.parsing_errors) ∧
    (∀ s' st', (basicParser now s' st').err = none) := by
  have hp1 := hp sentence { st with
    messages_received := st.messages_received + 1, last_message_time := now }
  cases herr : (parser sentence { st with
      messages_received := st.messages_received + 1
    , last_message_time := now }).err with
  | none =>
    refine ⟨?_, ?_, ?_, fun _ _ => rfl⟩ <;>
      simp [processNmeaSentence, herr, hp1.1, hp1.2.1, hp1.2.2]
  | some e =>
    refine ⟨?_, ?_, ?_, fun _ _ => rfl⟩ <;>
      simp [processNmeaSentence, herr, hp1.1, hp1.2.1, hp1.2.2]

/-- Witness for C7 with the fallback parser on a concrete sentence. -/
theorem processNmeaSentence_contract_witness :
    (processNmeaSentence (basicParser 3) 3 rmcSentenceA initController).1.messages_received
      = initController.messages_received + 1 ∧
    (processNmeaSentence (basicParser 3) 3 rmcSentenceA initController).1.last_message_time
      = 3 :=
  ⟨(processNmeaSentence_contract (basicParser 3)
      (fun s st => parseBasicNmea_stats 3 s st) 3 rmcSentenceA initController).1,
   (processNmeaSentence_contract (basicParser 3)
      (fun s st => parseBasicNmea_stats 3 s st) 3 rmcSentenceA initController).2.1⟩

/-- C8: the fallback coordinate parser maps `"4012.34567"`/`"N"` to
`40 + 12.34567/60` and `"07401.23456"`/`"W"` to `-(74 + 1.23456/60)`
(exact rationals); on the same strings the hemisphere letters `S` and
`W` negate the value and `N` and `E` keep it positive. -/
theorem parseCoordinate_spec :
    parseCoordinate "4012.34567" "N" = some (40 + (12 + 34567/100000)/60) ∧
    parseCoordinate "4012.34567" "S" = some (-(40 + (12 + 34567/100000)/60)) ∧
    parseCoordinate "07401.23456" "W" = some (-(74 + (1 + 23456/100000)/60)) ∧
    parseCoordinate "07401.23456" "E" = some (74 + (1 + 23456/100000)/60) := by
  have hN : (40 + (12 + 34567/100000)/60 : ℚ)
      = (((40 : Int) : ℚ))
        + ((((12 : Nat) : ℚ)) + (((34567 : Nat) : ℚ))/(10 : ℚ)^(5 : Nat))/60 := by
    push_cast
    norm_num
  have hW : (-(74 + (1 + 23456/100000)/60) : ℚ)
      = -((((74 : Int) : ℚ))
          + ((((1 : Nat) : ℚ)) + (((23456 : Nat) : ℚ))/(10 : ℚ)^(5 : Nat))/60) := by
    push_cast
    norm_num
  refine ⟨?_, ?_, ?_, ?_⟩
  · rw [hN]; rfl
  · rw [show (-(40 + (12 + 34567/100000)/60) : ℚ)
        = -((((40 : Int) : ℚ))
            + ((((12 : Nat) : ℚ)) + (((34567 : Nat) : ℚ))/(10 : ℚ)^(5 : Nat))/60) by
      rw [hN]]
    rfl
  · rw [hW]; rfl
  · rw [show (74 + (1 + 23456/100000)/60 : ℚ)
        = (((74 : Int) : ℚ))
          + ((((1 : Nat) : ℚ)) + (((23456 : Nat) : ℚ))/(10 : ℚ)^(5 : Nat))/60 by
      rw [← neg_inj, hW]]
    rfl

/-- C10: a GGA sentence whose fix-quality field parses to an integer the
enum rejects (outside 0–8) makes the basic parser abort inside the `try`
block without raising to its caller: latitude/longitude (assigned before
the fix-quality statement) are updated exactly as the lat/lon step
dictates, all later fields (`fix_type`, `satellites_used`, `hdop`,
`elevation`, `valid`, `timestamp`) keep their prior values, and no
position callback fires. -/
theorem gga_bad_quality_partial_update
    (now : ℚ) (sentence : String) (st : ControllerState) (n : Int)
    (hlen : 15 ≤ (pySplit sentence ',').length)
    (htype : pyEndsWith ((pySplit sentence ',').getD 0 "") "GGA" = true)
    (hq : pyInt ((pySplit sentence ',').getD 6 "") = some n)
    (hout : fixTypeOfInt n = none) :
    parseBasicNmea now sentence st
      = ({ st with position := ggaLatLon (pySplit sentence ',') st.position }, false) ∧
    (parseBasicNmea now sentence st).1.position.fix_type = st.position.fix_type ∧
    (parseBasicNmea now sentence st).1.position.satellites_used
      = st.position.satellites_used ∧
    (parseBasicNmea now sentence st).1.position.hdop = st.position.hdop ∧
    (parseBasicNmea now sentence st).1.position.elevation = st.position.elevation ∧
    (parseBasicNmea now sentence st).1.position.valid = st.position.valid ∧
    (parseBasicNmea now sentence st).1.position.timestamp = st.position.timestamp ∧
    (parseBasicNmea now sentence st).2 = false ∧
    (basicParser now sentence st).err = none := by
  have h6 : (pySplit sentence ',').getD 6 "" ≠ "" := by
    intro h
    rw [h] at hq
    exact Option.noConfusion hq
  have hmain : parseBasicNmea now sentence st
      = ({ st with position := ggaLatLon (pySplit sentence ',') st.position }, false) := by
    unfold parseBasicNmea
    rw [if_neg (by omega)]
    rw [if_pos ⟨htype, hlen⟩]
    unfold parseGGA
    rw [if_neg h6, hq]
    dsimp only
    rw [hout]
    rfl
  have hpres := ggaLatLon_preserves (pySplit sentence ',') st.position
  refine ⟨hmain, ?_, ?_, ?_, ?_, ?_, ?_, ?_, rfl⟩ <;> rw [hmain]
  · exact hpres.1
  · exact hpres.2.1
  · exact hpres.2.2.1
  · exact hpres.2.2.2.1
  · exact hpres.2.2.2.2.1
  · exact hpres.2.2.2.2.2

/-- Witness for C10 on a concrete quality-9 GGA sentence. -/
theorem gga_bad_quality_partial_update_witness :
    parseBasicNmea 7 ggaSentence9 initController
      = ({ initController with
            position := ggaLatLon (pySplit ggaSentence9 ',') initController.position },
         false) :=
  (gga_bad_quality_partial_update 7 ggaSentence9 initController 9
    (by decide) (by decide) (by decide) (by decide)).1

theorem handleAccepted_press (b : ButtonType) (now : ℚ) (s : BMState) :
    handleAccepted b true now s =
      { states := setF s.states b true
      , pressTimes := setF s.pressTimes b now
      , lastChange := setF s.lastChange b (some now)
      , queue := s.queue ++ [⟨b, ButtonEvent.PRESS, now⟩] } := by
  unfold handleAccepted triggerEvent
  simp

theorem handleAccepted_release_pressed (b : ButtonType) (now : ℚ) (s : BMState)
    (h : s.states b = true) :
    handleAccepted b false now s =
      { states := setF s.states b false
      , pressTimes := setF s.pressTimes b 0
      , lastChange := setF s.lastChange b (some now)
      , queue := s.queue ++ [⟨b, ButtonEvent.RELEASE, now⟩] } := by
  unfold handleAccepted triggerEvent
  simp [h]

theorem handleAccepted_release_unpressed (b : ButtonType) (now : ℚ) (s : BMState)
    (h : s.states b = false) :
    handleAccepted b false now s =
      { s with lastChange := setF s.lastChange b (some now) } := by
  unfold handleAccepted triggerEvent
  simp [h]

theorem checkLongPressFor_fire (now : ℚ) (s : BMState) (b : ButtonType)
    (h : s.states b = true ∧ 0 < s.pressTimes b ∧
      long_press_time ≤ now - s.pressTimes b) :
    checkLongPressFor now s b =
      { states := s.states
      , pressTimes := setF s.pressTimes b 0
      , lastChange := s.lastChange
      , queue := s.queue ++ [⟨b, ButtonEvent.LONG_PRESS, now⟩] } := by
  unfold checkLongPressFor triggerEvent
  rw [if_pos h]

theorem checkLongPressFor_skip (now : ℚ) (s : BMState) (b : ButtonType)
    (h : ¬(s.states b = true ∧ 0 < s.pressTimes b ∧
      long_press_time ≤ now - s.pressTimes b)) :
    checkLongPressFor now s b = s := by
  unfold checkLongPressFor
  rw [if_neg h]

theorem concat_decomp {α : Type} (l : List α) (x : α) (q₁ q₂ : List α) (e : α)
    (h : l ++ [x] = q₁ ++ e :: q₂) :
    (∃ q₂a, l = q₁ ++ e :: q₂a ∧ q₂ = q₂a ++ [x]) ∨ (q₁ = l ∧ e = x ∧ q₂ = []) := by
  rcases List.eq_nil_or_concat q₂ with rfl | ⟨q₂a, y, rfl⟩
  · right
    have h2 : l ++ [x] = q₁ ++ [e] := h
    have := List.append_inj' h2 rfl
    exact ⟨this.1.symm, (List.cons.injEq ..).mp this.2 |>.1.symm, rfl⟩
  · left
    have h2 : l ++ [x] = (q₁ ++ e :: q₂a) ++ [y] := by
      rw [h]
      simp
    have := List.append_inj' h2 rfl
    have hy : x = y := ((List.cons.injEq ..).mp this.2).1
    exact ⟨q₂a, this.1, by rw [List.concat_eq_append, hy]⟩

theorem phaseRun_concat (l : List ButtonEvent) (e : ButtonEvent) :
    phaseRun (l ++ [e]) = (phaseRun l).bind (fun ph => phaseStep ph e) := by
  simp [phaseRun, List.foldl_append]

theorem eventsFor_concat_same (b : ButtonType) (q : List BMEvent) (x : BMEvent)
    (h : x.button = b) : eventsFor b (q ++ [x]) = eventsFor b q ++ [x] := by
  simp [eventsFor, List.filter_append, h]

theorem eventsFor_concat_other (b : ButtonType) (q : List BMEvent) (x : BMEvent)
    (h : x.button ≠ b) : eventsFor b (q ++ [x]) = eventsFor b q := by
  simp [eventsFor, List.filter_append, h]

theorem kindsFor_concat_same (b : ButtonType) (q : List BMEvent) (x : BMEvent)
    (h : x.button = b) : kindsFor b (q ++ [x]) = kindsFor b q ++ [x.event] := by
  simp [kindsFor, eventsFor_concat_same b q x h]

theorem kindsFor_concat_other (b : ButtonType) (q : List BMEvent) (x : BMEvent)
    (h : x.button ≠ b) : kindsFor b (q ++ [x]) = kindsFor b q := by
  simp [kindsFor, eventsFor_concat_other b q x h]

theorem prTimesFor_concat_edge (b : ButtonType) (q : List BMEvent) (x : BMEvent)
    (hb : x.button = b) (he : x.event ≠ ButtonEvent.LONG_PRESS) :
    prTimesFor b (q ++ [x]) = prTimesFor b q ++ [x.timestamp] := by
  simp [prTimesFor, List.filter_append, hb, he]

theorem prTimesFor_concat_lp (b : ButtonType) (q : List BMEvent) (x : BMEvent)
    (h : x.event = ButtonEvent.LONG_PRESS) :
    prTimesFor b (q ++ [x]) = prTimesFor b q := by
  simp [prTimesFor, List.filter_append, h]

theorem prTimesFor_concat_other (b : ButtonType) (q : List BMEvent) (x : BMEvent)
    (h : x.button ≠ b) : prTimesFor b (q ++ [x]) = prTimesFor b q := by
  simp [prTimesFor, List.filter_append, h]

theorem Inv_press (s : BMState) (b : ButtonType) (now : ℚ)
    (lc : ButtonType → Option ℚ)
    (hInv : Inv s) (hnow : 0 < now) (hst : s.states b = false) :
    Inv { states := setF s.states b true
        , pressTimes := setF s.pressTimes b now
        , lastChange := lc
        , queue := s.queue ++ [⟨b, ButtonEvent.PRESS, now⟩] } := by
  intro b'
  obtain ⟨h0, h1, h2, h3⟩ := hInv b'
  dsimp only
  by_cases hb : b' = b
  · subst hb
    refine ⟨?_, ?_, ?_, ?_⟩
    · rw [setF_same]
      exact le_of_lt hnow
    · intro _
      refine ⟨by rw [setF_same], ?_⟩
      rw [setF_same]
      exact List.mem_append_right _ (by simp)
    · have hq : kindsFor b' (s.queue ++ [⟨b', ButtonEvent.PRESS, now⟩])
          = kindsFor b' s.queue ++ [ButtonEvent.PRESS] :=
        kindsFor_concat_same b' s.queue _ rfl
      rw [hq, phaseRun_concat, h2]
      have hid : phaseOf s b' = PressPhase.idle := by simp [phaseOf, hst]
      rw [hid]
      simp [phaseStep, phaseOf, setF_same, hnow]
    · intro q₁ e q₂ hsplit hbe hev
      rcases concat_decomp _ _ _ _ _ hsplit with ⟨q₂a, hl, rfl⟩ | ⟨rfl, rfl, rfl⟩
      · exact h3 q₁ e q₂a hl hbe hev
      · exact absurd hev (by simp)
  · have hb' : b' ≠ b := hb
    have hbn : b ≠ b' := fun h => hb h.symm
    have hstf : setF s.states b true b' = s.states b' := setF_other _ _ _ _ hb'
    have hptf : setF s.pressTimes b now b' = s.pressTimes b' := setF_other _ _ _ _ hb'
    refine ⟨?_, ?_, ?_, ?_⟩
    · rw [hptf]
      exact h0
    · intro hpos
      rw [hptf] at hpos
      rw [hstf, hptf]
      exact ⟨(h1 hpos).1, List.mem_append_left _ (h1 hpos).2⟩
    · have hq : kindsFor b' (s.queue ++ [⟨b, ButtonEvent.PRESS, now⟩])
          = kindsFor b' s.queue :=
        kindsFor_concat_other b' s.queue _ hbn
      rw [hq, h2]
      simp [phaseOf, hstf, hptf]
    · intro q₁ e q₂ hsplit hbe hev
      rcases concat_decomp _ _ _ _ _ hsplit with ⟨q₂a, hl, rfl⟩ | ⟨rfl, rfl, rfl⟩
      · exact h3 q₁ e q₂a hl hbe hev
      · exact absurd hbe hbn

theorem Inv_release (s : BMState) (b : ButtonType) (now : ℚ)
    (lc : ButtonType → Option ℚ)
    (hInv : Inv s) (hst : s.states b = true) :
    Inv { states := setF s.states b false
        , pressTimes := setF s.pressTimes b 0
        , lastChange := lc
        , queue := s.queue ++ [⟨b, ButtonEvent.RELEASE, now⟩] } := by
  intro b'
  obtain ⟨h0, h1, h2, h3⟩ := hInv b'
  dsimp only
  by_cases hb : b' = b
  · subst hb
    refine ⟨?_, ?_, ?_, ?_⟩
    · rw [setF_same]
    · intro hpos
      rw [setF_same] at hpos
      exact absurd hpos (lt_irrefl 0)
    · have hq : kindsFor b' (s.queue ++ [⟨b', ButtonEvent.RELEASE, now⟩])
          = kindsFor b' s.queue ++ [ButtonEvent.RELEASE] :=
        kindsFor_concat_same b' s.queue _ rfl
      have hstep : phaseStep (phaseOf s b') ButtonEvent.RELEASE
          = some PressPhase.idle := by
        by_cases hpt : 0 < s.pressTimes b' <;> simp [phaseOf, hst, hpt, phaseStep]
      rw [hq, phaseRun_concat, h2, Option.some_bind, hstep]
      simp [phaseOf, setF_same]
    · intro q₁ e q₂ hsplit hbe hev
      rcases concat_decomp _ _ _ _ _ hsplit with ⟨q₂a, hl, rfl⟩ | ⟨rfl, rfl, rfl⟩
      · exact h3 q₁ e q₂a hl hbe hev
      · exact absurd hev (by simp)
  · have hb' : b' ≠ b := hb
    have hbn : b ≠ b' := fun h => hb h.symm
    have hstf : setF s.states b false b' = s.states b' := setF_other _ _ _ _ hb'
    have hptf : setF s.pressTimes b 0 b' = s.pressTimes b' := setF_other _ _ _ _ hb'
    refine ⟨?_, ?_, ?_, ?_⟩
    · rw [hptf]
      exact h0
    · intro hpos
      rw [hptf] at hpos
      rw [hstf, hptf]
      exact ⟨(h1 hpos).1, List.mem_append_left _ (h1 hpos).2⟩
    · have hq : kindsFor b' (s.queue ++ [⟨b, ButtonEvent.RELEASE, now⟩])
          = kindsFor b' s.queue :=
        kindsFor_concat_other b' s.queue _ hbn
      rw [hq, h2]
      simp [phaseOf, hstf, hptf]
    · intro q₁ e q₂ hsplit hbe hev
      rcases concat_decomp _ _ _ _ _ hsplit with ⟨q₂a, hl, rfl⟩ | ⟨rfl, rfl, rfl⟩
      · exact h3 q₁ e q₂a hl hbe hev
      · exact absurd hbe hbn

theorem Inv_longpress (s : BMState) (b : ButtonType) (now : ℚ)
    (hInv : Inv s)
    (hfire : s.states b = true ∧ 0 < s.pressTimes b ∧
      long_press_time ≤ now - s.pressTimes b) :
    Inv { states := s.states
        , pressTimes := setF s.pressTimes b 0
        , lastChange := s.lastChange
        , queue := s.queue ++ [⟨b, ButtonEvent.LONG_PRESS, now⟩] } := by
  intro b'
  obtain ⟨h0, h1, h2, h3⟩ := hInv b'
  dsimp only
  by_cases hb : b' = b
  · subst hb
    refine ⟨?_, ?_, ?_, ?_⟩
    · rw [setF_same]
    · intro hpos
      rw [setF_same] at hpos
      exact absurd hpos (lt_irrefl 0)
    · have hq : kindsFor b' (s.queue ++ [⟨b', ButtonEvent.LONG_PRESS, now⟩])
          = kindsFor b' s.queue ++ [ButtonEvent.LONG_PRESS] :=
        kindsFor_concat_same b' s.queue _ rfl
      have hph : phaseOf s b' = PressPhase.pressed := by
        simp [phaseOf, hfire.1, hfire.2.1]
      rw [hq, phaseRun_concat, h2, hph]
      simp [phaseStep, phaseOf, hfire.1, setF_same]
    · intro q₁ e q₂ hsplit hbe hev
      rcases concat_decomp _ _ _ _ _ hsplit with ⟨q₂a, hl, rfl⟩ | ⟨rfl, rfl, rfl⟩
      · exact h3 q₁ e q₂a hl hbe hev
      · exact ⟨s.pressTimes b', (h1 hfire.2.1).2, hfire.2.2⟩
  · have hb' : b' ≠ b := hb
    have hbn : b ≠ b' := fun h => hb h.symm
    have hptf : setF s.pressTimes b 0 b' = s.pressTimes b' := setF_other _ _ _ _ hb'
    refine ⟨?_, ?_, ?_, ?_⟩
    · rw [hptf]
      exact h0
    · intro hpos
      rw [hptf] at hpos
      rw [hptf]
      exact ⟨(h1 hpos).1, List.mem_append_left _ (h1 hpos).2⟩
    · have hq : kindsFor b' (s.queue ++ [⟨b, ButtonEvent.LONG_PRESS, now⟩])
          = kindsFor b' s.queue :=
        kindsFor_concat_other b' s.queue _ hbn
      rw [hq, h2]
      simp [phaseOf, hptf]
    · intro q₁ e q₂ hsplit hbe hev
      rcases concat_decomp _ _ _ _ _ hsplit with ⟨q₂a, hl, rfl⟩ | ⟨rfl, rfl, rfl⟩
      · exact h3 q₁ e q₂a hl hbe hev
      · exact absurd hbe hbn
theorem Inv_handleAccepted_of_ne (b : ButtonType) (pressed : Bool) (now : ℚ)
    (s : BMState) (hInv : Inv s) (hnow : 0 < now)
    (hne : pressed ≠ s.states b) : Inv (handleAccepted b pressed now s) := by
  cases hpb : pressed with
  | true =>
    have hst : s.states b = false := by
      cases hsb : s.states b
      · rfl
      · rw [hpb, hsb] at hne
        exact absurd rfl hne
    rw [handleAccepted_press]
    exact Inv_press s b now _ hInv hnow hst
  | false =>
    have hst : s.states b = true := by
      cases hsb : s.states b
      · rw [hpb, hsb] at hne
        exact absurd rfl hne
      · rfl
    rw [handleAccepted_release_pressed b now s hst]
    exact Inv_release s b now _ hInv hst

theorem Inv_handleButtonStateChange (b : ButtonType) (pressed : Bool) (now : ℚ)
    (s : BMState) (hInv : Inv s) (hnow : 0 < now)
    (hne : pressed ≠ s.states b) :
    Inv (handleButtonStateChange b pressed now s) := by
  unfold handleButtonStateChange
  cases hlc : s.lastChange b with
  | none => exact Inv_handleAccepted_of_ne b pressed now s hInv hnow hne
  | some t =>
    dsimp only
    by_cases hlt : now - t < debounce_time
    · rw [if_pos hlt]
      exact hInv
    · rw [if_neg hlt]
      exact Inv_handleAccepted_of_ne b pressed now s hInv hnow hne

theorem Inv_pollButton (raw : Nat → Option Bool) (now : ℚ) (s : BMState)
    (bp : ButtonType × Nat) (hInv : Inv s) (hnow : 0 < now) :
    Inv (pollButton raw now s bp) := by
  unfold pollButton
  cases hr : raw bp.2 with
  | none => exact hInv
  | some lvl =>
    dsimp only
    by_cases hne : (lvl == false) ≠ s.states bp.1
    · rw [if_pos hne]
      exact Inv_handleButtonStateChange bp.1 (lvl == false) now s hInv hnow hne
    · rw [if_neg hne]
      exact hInv

theorem Inv_checkLongPressFor (now : ℚ) (s : BMState) (b : ButtonType)
    (hInv : Inv s) : Inv (checkLongPressFor now s b) := by
  by_cases h : s.states b = true ∧ 0 < s.pressTimes b ∧
      long_press_time ≤ now - s.pressTimes b
  · rw [checkLongPressFor_fire now s b h]
    exact Inv_longpress s b now hInv h
  · rw [checkLongPressFor_skip now s b h]
    exact hInv

theorem Inv_foldPoll (raw : Nat → Option Bool) (now : ℚ) (hnow : 0 < now) :
    ∀ (l : List (ButtonType × Nat)) (s : BMState), Inv s →
      Inv (l.foldl (pollButton raw now) s) := by
  intro l
  induction l with
  | nil => intro s h; exact h
  | cons a tl ih =>
    intro s h
    exact ih _ (Inv_pollButton raw now s a h hnow)

theorem Inv_foldCheck (now : ℚ) :
    ∀ (l : List (ButtonType × Nat)) (s : BMState), Inv s →
      Inv (l.foldl (fun st bp => checkLongPressFor now st bp.1) s) := by
  intro l
  induction l with
  | nil => intro s h; exact h
  | cons a tl ih =>
    intro s h
    exact ih _ (Inv_checkLongPressFor now s a.1 h)

theorem Inv_pollStep (raw : Nat → Option Bool) (now : ℚ) (s : BMState)
    (hInv : Inv s) (hnow : 0 < now) : Inv (pollStep raw now s) := by
  unfold pollStep checkLongPresses
  exact Inv_foldCheck now buttonManagerPins _
    (Inv_foldPoll raw now hnow buttonManagerPins s hInv)

theorem Inv_init : Inv initBMState := by
  intro b
  refine ⟨le_refl 0, ?_, ?_, ?_⟩
  · intro h
    exact absurd h (lt_irrefl 0)
  · simp [kindsFor, eventsFor, initBMState, phaseRun, phaseOf]
  · intro q₁ e q₂ h _ _
    exact absurd h (by simp [initBMState])

theorem Inv_runPollsAux :
    ∀ (l : List ((Nat → Option Bool) × ℚ)) (s : BMState),
      (∀ i ∈ l, 0 < i.2) → Inv s →
      Inv (l.foldl (fun st i => pollStep i.1 i.2 st) s) := by
  intro l
  induction l with
  | nil => intro s _ h; exact h
  | cons a tl ih =>
    intro s hpos h
    exact ih _ (fun i hi => hpos i (by simp [hi]))
      (Inv_pollStep a.1 a.2 s h (hpos a (by simp)))

theorem Inv_runPolls (sched : List ((Nat → Option Bool) × ℚ))
    (hpos : ∀ i ∈ sched, 0 < i.2) : Inv (runPolls sched) :=
  Inv_runPollsAux sched initBMState hpos Inv_init

theorem debounce_time_pos : (0 : ℚ) < debounce_time := by norm_num [debounce_time]

theorem DebInv_edge (s : BMState) (b : ButtonType) (now : ℚ) (ev : ButtonEvent)
    (stf : ButtonType → Bool) (ptf : ButtonType → ℚ)
    (hev : ev ≠ ButtonEvent.LONG_PRESS)
    (hD : DebInv s)
    (hacc : s.lastChange b = none ∨
      ∃ t, s.lastChange b = some t ∧ debounce_time ≤ now - t) :
    DebInv { states := stf, pressTimes := ptf
           , lastChange := setF s.lastChange b (some now)
           , queue := s.queue ++ [⟨b, ev, now⟩] } := by
  intro b'
  obtain ⟨d0, d1⟩ := hD b'
  dsimp only
  by_cases hb : b' = b
  · subst hb
    have hpr : prTimesFor b' (s.queue ++ [⟨b', ev, now⟩])
        = prTimesFor b' s.queue ++ [now] :=
      prTimesFor_concat_edge b' s.queue _ rfl hev
    constructor
    · intro hnone
      rw [setF_same] at hnone
      exact Option.noConfusion hnone
    · intro t ht
      rw [setF_same] at ht
      have htn : now = t := Option.some.inj ht
      subst htn
      rw [hpr]
      rcases hacc with hnone | ⟨t0, ht0, hge⟩
      · rw [d0 hnone]
        constructor
        · intro u hu
          have : u = now := by simpa using hu
          exact this.le
        · simp
      · obtain ⟨hle, hpw⟩ := d1 t0 ht0
        have ht0now : t0 ≤ now := by
          have := debounce_time_pos
          linarith
        constructor
        · intro u hu
          rcases List.mem_append.mp hu with hu | hu
          · exact (hle u hu).trans ht0now
          · exact (by simpa using hu : u = now).le
        · rw [List.pairwise_append]
          refine ⟨hpw, List.pairwise_singleton _ _, ?_⟩
          intro a ha c hc
          have hcn : c = now := by simpa using hc
          subst hcn
          have : a ≤ t0 := hle a ha
          linarith
  · have hb' : b' ≠ b := hb
    have hbn : b ≠ b' := fun h => hb h.symm
    have hlcf : setF s.lastChange b (some now) b' = s.lastChange b' :=
      setF_other _ _ _ _ hb'
    have hpr : prTimesFor b' (s.queue ++ [⟨b, ev, now⟩]) = prTimesFor b' s.queue :=
      prTimesFor_concat_other b' s.queue _ hbn
    constructor
    · intro hnone
      rw [hlcf] at hnone
      rw [hpr]
      exact d0 hnone
    · intro t ht
      rw [hlcf] at ht
      rw [hpr]
      exact d1 t ht

theorem DebInv_touch (s : BMState) (b : ButtonType) (now : ℚ)
    (hD : DebInv s)
    (hacc : s.lastChange b = none ∨
      ∃ t, s.lastChange b = some t ∧ debounce_time ≤ now - t) :
    DebInv { s with lastChange := setF s.lastChange b (some now) } := by
  intro b'
  obtain ⟨d0, d1⟩ := hD b'
  dsimp only
  by_cases hb : b' = b
  · subst hb
    constructor
    · intro hnone
      rw [setF_same] at hnone
      exact Option.noConfusion hnone
    · intro t ht
      rw [setF_same] at ht
      have htn : now = t := Option.some.inj ht
      subst htn
      rcases hacc with hnone | ⟨t0, ht0, hge⟩
      · rw [d0 hnone]
        exact ⟨fun u hu => absurd hu (by simp), by simp⟩
      · obtain ⟨hle, hpw⟩ := d1 t0 ht0
        have ht0now : t0 ≤ now := by
          have := debounce_time_pos
          linarith
        exact ⟨fun u hu => (hle u hu).trans ht0now, hpw⟩
  · have hb' : b' ≠ b := hb
    have hlcf : setF s.lastChange b (some now) b' = s.lastChange b' :=
      setF_other _ _ _ _ hb'
    constructor
    · intro hnone
      rw [hlcf] at hnone
      exact d0 hnone
    · intro t ht
      rw [hlcf] at ht
      exact d1 t ht

theorem DebInv_longpress (s : BMState) (b : ButtonType) (now : ℚ)
    (ptf : ButtonType → ℚ) (hD : DebInv s) :
    DebInv { states := s.states, pressTimes := ptf
           , lastChange := s.lastChange
           , queue := s.queue ++ [⟨b, ButtonEvent.LONG_PRESS, now⟩] } := by
  intro b'
  obtain ⟨d0, d1⟩ := hD b'
  dsimp only
  have hpr : prTimesFor b' (s.queue ++ [⟨b, ButtonEvent.LONG_PRESS, now⟩])
      = prTimesFor b' s.queue :=
    prTimesFor_concat_lp b' s.queue _ rfl
  rw [hpr]
  exact ⟨d0, d1⟩

theorem DebInv_handleAccepted (b : ButtonType) (pressed : Bool) (now : ℚ)
    (s : BMState) (hD : DebInv s)
    (hacc : s.lastChange b = none ∨
      ∃ t, s.lastChange b = some t ∧ debounce_time ≤ now - t) :
    DebInv (handleAccepted b pressed now s) := by
  cases pressed with
  | true =>
    rw [handleAccepted_press]
    exact DebInv_edge s b now ButtonEvent.PRESS _ _ (by simp) hD hacc
  | false =>
    cases hst : s.states b with
    | true =>
      rw [handleAccepted_release_pressed b now s hst]
      exact DebInv_edge s b now ButtonEvent.RELEASE _ _ (by simp) hD hacc
    | false =>
      rw [handleAccepted_release_unpressed b now s hst]
      exact DebInv_touch s b now hD hacc

theorem DebInv_handleButtonStateChange (b : ButtonType) (pressed : Bool)
    (now : ℚ) (s : BMState) (hD : DebInv s) :
    DebInv (handleButtonStateChange b pressed now s) := by
  unfold handleButtonStateChange
  cases hlc : s.lastChange b with
  | none => exact DebInv_handleAccepted b pressed now s hD (Or.inl hlc)
  | some t =>
    dsimp only
    by_cases hlt : now - t < debounce_time
    · rw [if_pos hlt]
      exact hD
    · rw [if_neg hlt]
      exact DebInv_handleAccepted b pressed now s hD
        (Or.inr ⟨t, hlc, le_of_not_lt hlt⟩)

theorem DebInv_pollButton (raw : Nat → Option Bool) (now : ℚ) (s : BMState)
    (bp : ButtonType × Nat) (hD : DebInv s) : DebInv (pollButton raw now s bp) := by
  unfold pollButton
  cases hr : raw bp.2 with
  | none => exact hD
  | some lvl =>
    dsimp only
    by_cases hne : (lvl == false) ≠ s.states bp.1
    · rw [if_pos hne]
      exact DebInv_handleButtonStateChange bp.1 (lvl == false) now s hD
    · rw [if_neg hne]
      exact hD

theorem DebInv_checkLongPressFor (now : ℚ) (s : BMState) (b : ButtonType)
    (hD : DebInv s) : DebInv (checkLongPressFor now s b) := by
  by_cases h : s.states b = true ∧ 0 < s.pressTimes b ∧
      long_press_time ≤ now - s.pressTimes b
  · rw [checkLongPressFor_fire now s b h]
    exact DebInv_longpress s b now _ hD
  · rw [checkLongPressFor_skip now s b h]
    exact hD

theorem DebInv_foldPoll (raw : Nat → Option Bool) (now : ℚ) :
    ∀ (l : List (ButtonType × Nat)) (s : BMState), DebInv s →
      DebInv (l.foldl (pollButton raw now) s) := by
  intro l
  induction l with
  | nil => intro s h; exact h
  | cons a tl ih =>
    intro s h
    exact ih _ (DebInv_pollButton raw now s a h)

theorem DebInv_foldCheck (now : ℚ) :
    ∀ (l : List (ButtonType × Nat)) (s : BMState), DebInv s →
      DebInv (l.foldl (fun st bp => checkLongPressFor now st bp.1) s) := by
  intro l
  induction l with
  | nil => intro s h; exact h
  | cons a tl ih =>
    intro s h
    exact ih _ (DebInv_checkLongPressFor now s a.1 h)

theorem DebInv_pollStep (raw : Nat → Option Bool) (now : ℚ) (s : BMState)
    (hD : DebInv s) : DebInv (pollStep raw now s) := by
  unfold pollStep checkLongPresses
  exact DebInv_foldCheck now buttonManagerPins _
    (DebInv_foldPoll raw now buttonManagerPins s hD)

theorem DebInv_init : DebInv initBMState := by
  intro b
  constructor
  · intro _
    simp [prTimesFor, initBMState]
  · intro t ht
    exact absurd ht (by simp [initBMState])

theorem DebInv_runPollsAux :
    ∀ (l : List ((Nat → Option Bool) × ℚ)) (s : BMState), DebInv s →
      DebInv (l.foldl (fun st i => pollStep i.1 i.2 st) s) := by
  intro l
  induction l with
  | nil => intro s h; exact h
  | cons a tl ih =>
    intro s h
    exact ih _ (DebInv_pollStep a.1 a.2 s h)

theorem DebInv_runPolls (sched : List ((Nat → Option Bool) × ℚ)) :
    DebInv (runPolls sched) :=
  DebInv_runPollsAux sched initBMState DebInv_init

theorem countKind_concat (ev : ButtonEvent) (l : List ButtonEvent) (e : ButtonEvent) :
    countKind ev (l ++ [e]) = countKind ev l + (if e = ev then 1 else 0) := by
  by_cases h : e = ev <;> simp [countKind, List.filter_append, h]

theorem phaseRun_count (l : List ButtonEvent) :
    ∀ ph : PressPhase, phaseRun l = some ph →
    countKind ButtonEvent.LONG_PRESS l + (if ph = PressPhase.pressed then 1 else 0)
      ≤ countKind ButtonEvent.PRESS l := by
  induction l using List.reverseRecOn with
  | nil =>
    intro ph h
    have hid : PressPhase.idle = ph := by simpa [phaseRun] using h
    subst hid
    simp [countKind]
  | append_singleton l e ih =>
    intro ph h
    rw [phaseRun_concat] at h
    cases hpr : phaseRun l with
    | none =>
      rw [hpr] at h
      exact absurd h (by simp)
    | some ph' =>
      rw [hpr] at h
      rw [Option.some_bind] at h
      have hih := ih ph' hpr
      cases ph' <;> cases e <;>
        simp only [phaseStep, Option.some.injEq, reduceCtorEq] at h <;>
        first
          | exact absurd h (by simp)
          | (subst h
             simp only [countKind_concat]
             split at hih <;> split <;> simp_all <;> omega)

theorem phaseRun_fired_mem (l : List ButtonEvent) :
    phaseRun l = some PressPhase.fired → ButtonEvent.LONG_PRESS ∈ l := by
  induction l using List.reverseRecOn with
  | nil =>
    intro h
    exact absurd h (by simp [phaseRun])
  | append_singleton l e ih =>
    intro h
    rw [phaseRun_concat] at h
    cases hpr : phaseRun l with
    | none =>
      rw [hpr] at h
      exact absurd h (by simp)
    | some ph' =>
      rw [hpr] at h
      rw [Option.some_bind] at h
      cases ph' <;> cases e <;>
        simp only [phaseStep, Option.some.injEq, reduceCtorEq] at h
      all_goals simp

/-- Counterexample for C4 as stated: pressing KEY1 at t = 1 and holding
past the long-press threshold makes `_check_long_presses` fire the
`LONG_PRESS` and zero `button_press_times[KEY1]` while the button stays
pressed — so `pressed == true` with the sentinel press timestamp. -/
theorem pressed_with_zero_presstime :
    (runPolls schedHold).states ButtonType.KEY1 = true ∧
    (runPolls schedHold).pressTimes ButtonType.KEY1 = 0 ∧
    BMEvent.mk ButtonType.KEY1 ButtonEvent.LONG_PRESS (5/2)
      ∈ (runPolls schedHold).queue := by
  set_option maxRecDepth 100000 in with_unfolding_all decide

/-- C4 amended: after any poll schedule with positive clock values,
`pressed == true` implies the press timestamp is non-sentinel UNLESS a
`LONG_PRESS` has already been emitted for this button (the check zeroes
the timestamp on emission, by design, to suppress repeats). -/
theorem pressed_implies_live_or_longpress
    (sched : List ((Nat → Option Bool) × ℚ)) (hpos : ∀ i ∈ sched, 0 < i.2)
    (b : ButtonType) (hpr : (runPolls sched).states b = true) :
    (runPolls sched).pressTimes b ≠ 0 ∨
    ∃ e ∈ (runPolls sched).queue,
      e.button = b ∧ e.event = ButtonEvent.LONG_PRESS := by
  obtain ⟨h0, h1, h2, h3⟩ := Inv_runPolls sched hpos b
  by_cases hpt : (runPolls sched).pressTimes b = 0
  · right
    have hph : phaseOf (runPolls sched) b = PressPhase.fired := by
      simp [phaseOf, hpr, hpt]
    rw [hph] at h2
    have hlp := phaseRun_fired_mem _ h2
    simp only [kindsFor, eventsFor, List.mem_map, List.mem_filter,
      decide_eq_true_eq] at hlp
    obtain ⟨e, ⟨he, hb⟩, hev⟩ := hlp
    exact ⟨e, he, hb, hev⟩
  · left
    exact hpt

/-- Witness for the amended C4 on the hold schedule. -/
theorem pressed_implies_live_or_longpress_witness :
    (runPolls schedHold).pressTimes ButtonType.KEY1 ≠ 0 ∨
    ∃ e ∈ (runPolls schedHold).queue,
      e.button = ButtonType.KEY1 ∧ e.event = ButtonEvent.LONG_PRESS :=
  pressed_implies_live_or_longpress schedHold
    (by set_option maxRecDepth 100000 in with_unfolding_all decide) ButtonType.KEY1
    (by set_option maxRecDepth 100000 in with_unfolding_all decide)

/-- C5: per button and per poll schedule with positive clocks: the number
of `LONG_PRESS` events never exceeds the number of `PRESS` events; the
button's event word is a legal `Released → Pressed → (LongPress)? →
Released` path (so at most one `LONG_PRESS` per press, never without a
preceding `PRESS`); every `LONG_PRESS` has a `PRESS` of the same button
at least `long_press_time` earlier in the queue; the long-press check
never changes the pressed/released state; and it emits nothing unless the
button is pressed with a live press time past the threshold. -/
theorem longPress_exactly_once
    (sched : List ((Nat → Option Bool) × ℚ)) (hpos : ∀ i ∈ sched, 0 < i.2)
    (b : ButtonType) :
    countKind ButtonEvent.LONG_PRESS (kindsFor b (runPolls sched).queue)
      ≤ countKind ButtonEvent.PRESS (kindsFor b (runPolls sched).queue) ∧
    (phaseRun (kindsFor b (runPolls sched).queue)).isSome ∧
    (∀ q₁ e q₂, (runPolls sched).queue = q₁ ++ e :: q₂ → e.button = b →
      e.event = ButtonEvent.LONG_PRESS →
      ∃ t, BMEvent.mk b ButtonEvent.PRESS t ∈ q₁ ∧
        long_press_time ≤ e.timestamp - t) ∧
    (∀ now σ, (checkLongPressFor now σ b).states = σ.states) ∧
    (∀ now σ, ¬(σ.states b = true ∧ 0 < σ.pressTimes b ∧
        long_press_time ≤ now - σ.pressTimes b) →
      (checkLongPressFor now σ b).queue = σ.queue) := by
  obtain ⟨h0, h1, h2, h3⟩ := Inv_runPolls sched hpos b
  refine ⟨?_, ?_, h3, ?_, ?_⟩
  · have := phaseRun_count _ _ h2
    exact le_trans (Nat.le_add_right _ _) this
  · rw [h2]
    rfl
  · intro now σ
    unfold checkLongPressFor triggerEvent
    split <;> rfl
  · intro now σ h
    rw [checkLongPressFor_skip now σ b h]

/-- Witness for C5 on the hold schedule. -/
theorem longPress_exactly_once_witness :
    countKind ButtonEvent.LONG_PRESS
        (kindsFor ButtonType.KEY1 (runPolls schedHold).queue)
      ≤ countKind ButtonEvent.PRESS
        (kindsFor ButtonType.KEY1 (runPolls schedHold).queue) :=
  (longPress_exactly_once schedHold (by set_option maxRecDepth 100000 in with_unfolding_all decide)
    ButtonType.KEY1).1

/-- Counterexample for C6 as stated: on `schedBounce` the release edge is
first detected at t = 1.03, only 0.03 s (less than the 50 ms window)
after the press detected at t = 1 — yet TWO logical events are produced,
because the suppressed release level persists and is accepted when
re-examined at t = 1.06.  Two raw transitions separated by less than the
debounce window therefore do not produce "at most one logical event". -/
theorem debounce_two_events_within_window :
    (runPolls schedBounce).queue
      = [⟨ButtonType.KEY1, ButtonEvent.PRESS, 1⟩,
         ⟨ButtonType.KEY1, ButtonEvent.RELEASE, 1 + 6/100⟩] ∧
    ((1 + 3/100 : ℚ) - 1 < debounce_time) := by
  set_option maxRecDepth 100000 in with_unfolding_all decide

/-- C6 amended: a transition arriving within the debounce window of the
previous accepted change produces no event at that poll (the handler
returns with the state untouched); a suppressed level that persists is
re-detected on a later poll, so its event is deferred, not dropped — and
consequently any two press/release events of the same button in the queue
are at least the debounce window apart, over every poll schedule. -/
theorem debounce_min_separation
    (sched : List ((Nat → Option Bool) × ℚ)) (b : ButtonType) :
    (prTimesFor b (runPolls sched).queue).Pairwise
      (fun a c => a + debounce_time ≤ c) ∧
    (∀ now σ p t, σ.lastChange b = some t → now - t < debounce_time →
      handleButtonStateChange b p now σ = σ) := by
  constructor
  · obtain ⟨d0, d1⟩ := DebInv_runPolls sched b
    cases hlc : (runPolls sched).lastChange b with
    | none =>
      rw [d0 hlc]
      exact List.Pairwise.nil
    | some t => exact (d1 t hlc).2
  · intro now σ p t hlc hlt
    unfold handleButtonStateChange
    rw [hlc]
    dsimp only
    rw [if_pos hlt]

/-- Witness for the amended C6: with KEY1's last accepted change at
t = 1, a change arriving at t = 1.03 is ignored and the state is
returned untouched. -/
theorem debounce_min_separation_witness :
    handleButtonStateChange ButtonType.KEY1 false (1 + 3/100)
      (runPolls [(rawPressK1, 1)]) = runPolls [(rawPressK1, 1)] :=
  (debounce_min_separation [] ButtonType.KEY1).2 (1 + 3/100)
    (runPolls [(rawPressK1, 1)]) false 1
    (by set_option maxRecDepth 100000 in with_unfolding_all decide) (by set_option maxRecDepth 100000 in with_unfolding_all decide)

theorem runButtonCallbacks_append
    (cbs₁ cbs₂ : List (ButtonType → ButtonEvent → Except String Unit))
    (b : ButtonType) (ev : ButtonEvent) :
    runButtonCallbacks (cbs₁ ++ cbs₂) b ev
      = runButtonCallbacks cbs₁ b ev ++ runButtonCallbacks cbs₂ b ev := by
  induction cbs₁ with
  | nil => rfl
  | cons cb tl ih => simp [runButtonCallbacks, ih]

theorem runPositionCallbacks_append
    (pcs₁ pcs₂ : List (GNSSPosition → Except String Unit)) (p : GNSSPosition) :
    runPositionCallbacks (pcs₁ ++ pcs₂) p
      = runPositionCallbacks pcs₁ p ++ runPositionCallbacks pcs₂ p := by
  induction pcs₁ with
  | nil => rfl
  | cons pc tl ih => simp [runPositionCallbacks, ih]

/-- C9: in both dispatchers (button events and position updates) a
callback that raises is recorded and does not stop the loop: every
callback before and after it still runs, in registration order, with the
same argument, and the dispatch returns a result for every registered
callback (its result list has one entry per callback). -/
theorem callback_isolation :
    (∀ (cbs₁ cbs₂ : List (ButtonType → ButtonEvent → Except String Unit))
       (cb : ButtonType → ButtonEvent → Except String Unit)
       (b : ButtonType) (ev : ButtonEvent) (e : String),
      cb b ev = Except.error e →
      runButtonCallbacks (cbs₁ ++ cb :: cbs₂) b ev
        = runButtonCallbacks cbs₁ b ev
          ++ Except.error e :: runButtonCallbacks cbs₂ b ev) ∧
    (∀ (cbs : List (ButtonType → ButtonEvent → Except String Unit))
       (b : ButtonType) (ev : ButtonEvent),
      (runButtonCallbacks cbs b ev).length = cbs.length) ∧
    (∀ (pcs₁ pcs₂ : List (GNSSPosition → Except String Unit))
       (pc : GNSSPosition → Except String Unit) (p : GNSSPosition) (e : String),
      pc p = Except.error e →
      runPositionCallbacks (pcs₁ ++ pc :: pcs₂) p
        = runPositionCallbacks pcs₁ p
          ++ Except.error e :: runPositionCallbacks pcs₂ p) ∧
    (∀ (pcs : List (GNSSPosition → Except String Unit)) (p : GNSSPosition),
      (runPositionCallbacks pcs p).length = pcs.length) := by
  refine ⟨?_, ?_, ?_, ?_⟩
  · intro cbs₁ cbs₂ cb b ev e he
    rw [runButtonCallbacks_append]
    simp [runButtonCallbacks, he]
  · intro cbs b ev
    induction cbs with
    | nil => rfl
    | cons cb tl ih => simp [runButtonCallbacks, ih]
  · intro pcs₁ pcs₂ pc p e he
    rw [runPositionCallbacks_append]
    simp [runPositionCallbacks, he]
  · intro pcs p
    induction pcs with
    | nil => rfl
    | cons pc tl ih => simp [runPositionCallbacks, ih]

/-- Witness for C9: a failing middle callback leaves the surrounding
callbacks' invocations intact in both dispatchers. -/
theorem callback_isolation_witness :
    runButtonCallbacks [cbOk, cbBad, cbOk] ButtonType.KEY1 ButtonEvent.PRESS
      = runButtonCallbacks [cbOk] ButtonType.KEY1 ButtonEvent.PRESS
        ++ Except.error "boom"
          :: runButtonCallbacks [cbOk] ButtonType.KEY1 ButtonEvent.PRESS ∧
    runPositionCallbacks [pcOk, pcBad, pcOk] initPosition
      = runPositionCallbacks [pcOk] initPosition
        ++ Except.error "boom" :: runPositionCallbacks [pcOk] initPosition :=
  ⟨callback_isolation.1 [cbOk] [cbOk] cbBad ButtonType.KEY1 ButtonEvent.PRESS
      "boom" rfl,
   callback_isolation.2.2.1 [pcOk] [pcOk] pcBad initPosition "boom" rfl⟩

end PiRTK
